import Mathlib

/-!
Verification of the noscli Nostr client core (internal/nostr) against its
specification. The Go source is shallowly embedded: bytes are lists of
naturals below 256, machine integers are Int, fallible operations return
Option or Except, and pointer mutation is modelled by returning the updated
value. The external secp256k1 Schnorr library (btcec/schnorr) is a parameter:
definitions are generic over any implementation of its interface, and concrete
executable instances are supplied where theorems are instantiated.
-/

set_option maxRecDepth 1000000

namespace Noscli

/-- A byte string: a list of naturals, each intended to be below 256. -/
abbrev Bytes := List Nat

/-! ### Hex encoding and decoding (Go encoding/hex) -/

/-- Lowercase hex digit for a value below 16, as produced by Go
hex.EncodeToString. -/
def hexDigitChar (n : Nat) : Char :=
  if n < 10 then Char.ofNat (48 + n) else Char.ofNat (87 + n)

/-- Go hex.EncodeToString: two lowercase hex digits per byte. -/
def hexEncode (bs : Bytes) : String :=
  String.mk (bs.flatMap (fun b => [hexDigitChar (b / 16), hexDigitChar (b % 16)]))

/-- Value of one hex digit, upper or lower case, as accepted by Go
hex.DecodeString. -/
def hexDigitVal (c : Char) : Option Nat :=
  if 48 ≤ c.toNat ∧ c.toNat ≤ 57 then some (c.toNat - 48)
  else if 97 ≤ c.toNat ∧ c.toNat ≤ 102 then some (c.toNat - 87)
  else if 65 ≤ c.toNat ∧ c.toNat ≤ 70 then some (c.toNat - 55)
  else none

/-- Go hex.DecodeString on a character list: fails on an odd-length input or
any non-hex character. -/
def hexDecodeChars : List Char → Option Bytes
  | [] => some []
  | [_] => none
  | c1 :: c2 :: rest =>
    match hexDigitVal c1, hexDigitVal c2, hexDecodeChars rest with
    | some h, some l, some tl => some ((h * 16 + l) :: tl)
    | _, _, _ => none

/-- Go hex.DecodeString. -/
def hexDecode (s : String) : Option Bytes := hexDecodeChars s.data

/-! ### Case-insensitive string comparison (Go strings.EqualFold)

Go uses Unicode simple case folding; on the ASCII strings compared by this
program (hex digests and ids) that coincides with ASCII folding, which is what
is modelled here. -/

/-- Lowercase an ASCII letter, leave every other character unchanged. -/
def asciiLower (c : Char) : Char :=
  if 65 ≤ c.toNat ∧ c.toNat ≤ 90 then Char.ofNat (c.toNat + 32) else c

/-- strings.EqualFold restricted to ASCII folding. -/
def eqFold (a b : String) : Bool :=
  a.data.map asciiLower == b.data.map asciiLower

/-! ### UTF-8 encoding -/

/-- UTF-8 encoding of a single Unicode code point. -/
def utf8Char (n : Nat) : Bytes :=
  if n < 0x80 then [n]
  else if n < 0x800 then
    [0xC0 ||| (n >>> 6), 0x80 ||| (n &&& 0x3F)]
  else if n < 0x10000 then
    [0xE0 ||| (n >>> 12), 0x80 ||| ((n >>> 6) &&& 0x3F), 0x80 ||| (n &&& 0x3F)]
  else
    [0xF0 ||| (n >>> 18), 0x80 ||| ((n >>> 12) &&& 0x3F),
     0x80 ||| ((n >>> 6) &&& 0x3F), 0x80 ||| (n &&& 0x3F)]

/-- UTF-8 encoding of a string. -/
def utf8 (s : String) : Bytes :=
  s.data.flatMap (fun c => utf8Char c.toNat)

/-! ### Go encoding/json string and integer serialization

json.Marshal escapes the quote, backslash, the control characters (with short
forms for newline, carriage return and tab), and, with its default HTML
escaping, the characters lt, gt, amp and U+2028/U+2029. -/

/-- Escape one character the way Go json.Marshal (default encoder, HTML
escaping on) writes it inside a string literal. -/
def jsonEscapeChar (c : Char) : List Char :=
  let n := c.toNat
  if n = 34 then ['\\', '"']
  else if n = 92 then ['\\', '\\']
  else if n = 10 then ['\\', 'n']
  else if n = 13 then ['\\', 'r']
  else if n = 9 then ['\\', 't']
  else if n < 0x20 ∨ n = 60 ∨ n = 62 ∨ n = 38 then
    ['\\', 'u', '0', '0', hexDigitChar (n / 16), hexDigitChar (n % 16)]
  else if n = 0x2028 ∨ n = 0x2029 then
    ['\\', 'u', '2', '0', '2', hexDigitChar (n % 16)]
  else [c]

/-- UTF-8 bytes of a JSON string literal (quotes included) as produced by Go
json.Marshal. -/
def jsonQuoteString (s : String) : Bytes :=
  utf8 (String.mk ('"' :: s.data.flatMap jsonEscapeChar ++ ['"']))

/-- Decimal digits of a natural number. -/
def natDecimalChars (fuel n : Nat) : List Char :=
  match fuel with
  | 0 => []
  | fuel + 1 =>
    if n < 10 then [Char.ofNat (48 + n)]
    else natDecimalChars fuel (n / 10) ++ [Char.ofNat (48 + n % 10)]

/-- ASCII bytes of the decimal form of an integer, as json.Marshal writes an
int64. -/
def intDecimalBytes (i : Int) : Bytes :=
  match i with
  | Int.ofNat n => utf8 (String.mk (natDecimalChars (n + 1) n))
  | Int.negSucc m => 45 :: utf8 (String.mk (natDecimalChars (m + 2) (m + 1)))

/-! ### SHA-256 (crypto/sha256) over byte lists, 32-bit words as Nat mod 2^32 -/

def w32 : Nat := 4294967296

def rotr (n x : Nat) : Nat := ((x >>> n) ||| (x <<< (32 - n))) % w32

def shr (n x : Nat) : Nat := x >>> n

def bsig0 (x : Nat) : Nat := (rotr 2 x) ^^^ (rotr 13 x) ^^^ (rotr 22 x)
def bsig1 (x : Nat) : Nat := (rotr 6 x) ^^^ (rotr 11 x) ^^^ (rotr 25 x)
def ssig0 (x : Nat) : Nat := (rotr 7 x) ^^^ (rotr 18 x) ^^^ (shr 3 x)
def ssig1 (x : Nat) : Nat := (rotr 17 x) ^^^ (rotr 19 x) ^^^ (shr 10 x)

def ch (x y z : Nat) : Nat := (x &&& y) ^^^ ((x ^^^ 0xffffffff) &&& z)
def maj (x y z : Nat) : Nat := (x &&& y) ^^^ (x &&& z) ^^^ (y &&& z)

/-- The 64 SHA-256 round constants, written in decimal. -/
def sha256K : List Nat :=
  [1116352408, 1899447441, 3049323471, 3921009573, 961987163, 1508970993,
   2453635748, 2870763221, 3624381080, 310598401, 607225278, 1426881987,
   1925078388, 2162078206, 2614888103, 3248222580, 3835390401, 4022224774,
   264347078, 604807628, 770255983, 1249150122, 1555081692, 1996064986,
   2554220882, 2821834349, 2952996808, 3210313671, 3336571891, 3584528711,
   113926993, 338241895, 666307205, 773529912, 1294757372, 1396182291,
   1695183700, 1986661051, 2177026350, 2456956037, 2730485921, 2820302411,
   3259730800, 3345764771, 3516065817, 3600352804, 4094571909, 275423344,
   430227734, 506948616, 659060556, 883997877, 958139571, 1322822218,
   1537002063, 1747873779, 1955562222, 2024104815, 2227730452, 2361852424,
   2428436474, 2756734187, 3204031479, 3329325298]

/-- The eight SHA-256 working variables. -/
structure Hash8 where
  a : Nat
  b : Nat
  c : Nat
  d : Nat
  e : Nat
  f : Nat
  g : Nat
  h : Nat

/-- Extend the message schedule; the list is kept reversed so the most recent
word is at the head. -/
def schedExt : Nat → List Nat → List Nat
  | 0, wrev => wrev
  | n + 1, wrev =>
    schedExt n
      (((ssig1 (wrev.getD 1 0) + wrev.getD 6 0 + ssig0 (wrev.getD 14 0) + wrev.getD 15 0) % w32)
        :: wrev)

/-- The 64-word message schedule of one 16-word block. -/
def buildSchedule (block : List Nat) : List Nat :=
  (schedExt 48 block.reverse).reverse

/-- One SHA-256 compression round. -/
def sha256Step (s : Hash8) (kw : Nat × Nat) : Hash8 :=
  let t1 := (s.h + bsig1 s.e + ch s.e s.f s.g + kw.1 + kw.2) % w32
  let t2 := (bsig0 s.a + maj s.a s.b s.c) % w32
  { a := (t1 + t2) % w32, b := s.a, c := s.b, d := s.c,
    e := (s.d + t1) % w32, f := s.e, g := s.f, h := s.g }

/-- Compress one 16-word block into the running hash state. -/
def compress (s : Hash8) (block : List Nat) : Hash8 :=
  let w := buildSchedule block
  let r := (sha256K.zip w).foldl sha256Step s
  { a := (s.a + r.a) % w32, b := (s.b + r.b) % w32, c := (s.c + r.c) % w32,
    d := (s.d + r.d) % w32, e := (s.e + r.e) % w32, f := (s.f + r.f) % w32,
    g := (s.g + r.g) % w32, h := (s.h + r.h) % w32 }

/-- Big-endian 32-bit words from bytes. -/
def toWords : List Nat → List Nat
  | b0 :: b1 :: b2 :: b3 :: rest => (((b0 * 256 + b1) * 256 + b2) * 256 + b3) :: toWords rest
  | _ => []

/-- Split a word list into 16-word blocks (fuel-driven recursion). -/
def chunks : Nat → List Nat → List (List Nat)
  | 0, _ => []
  | _, [] => []
  | fuel + 1, ws => ws.take 16 :: chunks fuel (ws.drop 16)

/-- Big-endian bytes of a number, fixed width. -/
def beBytes (n : Nat) : Nat → List Nat
  | 0 => []
  | k + 1 => beBytes (n / 256) k ++ [n % 256]

/-- SHA-256 initial hash value, written in decimal. -/
def sha256Init : Hash8 :=
  { a := 1779033703, b := 3144134277, c := 1013904242, d := 2773480762,
    e := 1359893119, f := 2600822924, g := 528734635, h := 1541459225 }

/-- Serialize the final state to 32 bytes. -/
def hash8Bytes (s : Hash8) : Bytes :=
  beBytes s.a 4 ++ beBytes s.b 4 ++ beBytes s.c 4 ++ beBytes s.d 4 ++
    beBytes s.e 4 ++ beBytes s.f 4 ++ beBytes s.g 4 ++ beBytes s.h 4

/-- SHA-256 digest of a byte string (crypto/sha256 Sum256). -/
def sha256 (m : Bytes) : Bytes :=
  let L := m.length
  let padded := m ++ 0x80 :: List.replicate ((119 - L % 64) % 64) 0 ++ beBytes (8 * L) 8
  let ws := toWords padded
  hash8Bytes ((chunks ws.length ws).foldl compress sha256Init)

/-! ### The Event data model (internal/nostr/event.go)

Go slice fields distinguish nil from empty; for Tags this matters because
json.Marshal writes a nil slice as null and an empty one as an empty array,
so Tags is modelled as an Option (none = nil slice). A nil inner tag slice is
not distinguished from an empty one; no property below depends on it. -/

/-- Event mirrors the Go struct: id, pubkey, sig are hex strings, created_at
is Unix seconds, tags is a slice of string slices (none = nil slice), Relay is
the json-ignored origin field. -/
structure Event where
  ID : String
  PubKey : String
  CreatedAt : Int
  Kind : Int
  Tags : Option (List (List String))
  Content : String
  Sig : String
  Relay : String
deriving DecidableEq, Repr

/-- Comma-separated concatenation of serialized pieces. -/
def commaJoin : List Bytes → Bytes
  | [] => []
  | [b] => b
  | b :: rest => b ++ 44 :: commaJoin rest

/-- json.Marshal of a []string value (nil inner slices not distinguished). -/
def jsonStringArray (xs : List String) : Bytes :=
  91 :: commaJoin (xs.map jsonQuoteString) ++ [93]

/-- json.Marshal of the Tags field: a nil [][]string marshals as null, a
present one as an array of string arrays. -/
def serializeTags : Option (List (List String)) → Bytes
  | none => utf8 "null"
  | some ts => 91 :: commaJoin (ts.map jsonStringArray) ++ [93]

/-- json.Marshal of the payload []any of hashEvent: the six-element array
(0, pubkey, created_at, kind, tags, content), compact, UTF-8. -/
def serializePayload (pubkey : String) (created_at : Int) (kind : Int)
    (tags : Option (List (List String))) (content : String) : Bytes :=
  91 :: 48 :: 44 :: jsonQuoteString pubkey ++ 44 :: intDecimalBytes created_at ++
    44 :: intDecimalBytes kind ++ 44 :: serializeTags tags ++
    44 :: jsonQuoteString content ++ [93]

/-- hashEvent from event.go: SHA-256 of the serialized payload. json.Marshal
cannot fail on this payload, so the Go error branch is dead and the model is
total. -/
def hashEvent (e : Event) : Bytes :=
  sha256 (serializePayload e.PubKey e.CreatedAt e.Kind e.Tags e.Content)

/-! ### The external Schnorr library interface (btcec/v2 and btcec/v2/schnorr)

The event code is generic in the library: any implementation of this
interface can be plugged in. Sig and Pub are the library's signature and
public key types. -/

/-- Interface of the btcec Schnorr library as used by event.go. sign models
schnorr.Sign composed with btcec.PrivKeyFromBytes (total: the Go error branch
is unreachable for the fixed-size digests passed here); pubKeyOfPriv models
schnorr.SerializePubKey of the derived public key. -/
structure SchnorrImpl (Sig Pub : Type) where
  parseSig : Bytes → Option Sig
  serializeSig : Sig → Bytes
  parsePubKey : Bytes → Option Pub
  pubKeyOfPriv : Bytes → Bytes
  sign : Bytes → Bytes → Sig
  verify : Sig → Bytes → Pub → Bool

/-- The distinct failure exits of Event.Verify, in source order. -/
inductive VerifyError
  | idMismatch
  | pubkeyDecode
  | pubkeyLength (n : Nat)
  | sigDecode
  | sigParse
  | pubkeyParse
  | verifyFailed
deriving DecidableEq, Repr

/-- The InvalidPubKey error kind of the spec taxonomy: pubkey hex-decode
failure, wrong length, or not a valid curve point. -/
def VerifyError.isInvalidPubKey : VerifyError → Bool
  | .pubkeyDecode => true
  | .pubkeyLength _ => true
  | .pubkeyParse => true
  | _ => false

/-- The InvalidSignature error kind of the spec taxonomy: sig hex-decode or
parse failure. -/
def VerifyError.isInvalidSignature : VerifyError → Bool
  | .sigDecode => true
  | .sigParse => true
  | _ => false

/-- Event.Verify from event.go, step for step: recompute the hash and compare
case-insensitively with ID; hex-decode PubKey and check its length; hex-decode
Sig; schnorr.ParseSignature; schnorr.ParsePubKey; Schnorr verification.
Returns none on success, or the first failing check's error. -/
def Verify {Sig Pub : Type} (S : SchnorrImpl Sig Pub) (e : Event) : Option VerifyError :=
  let hash := hashEvent e
  let expected := hexEncode hash
  if ¬ eqFold expected e.ID then some .idMismatch
  else
    match hexDecode e.PubKey with
    | none => some .pubkeyDecode
    | some pubKeyBytes =>
      if pubKeyBytes.length ≠ 32 then some (.pubkeyLength pubKeyBytes.length)
      else
        match hexDecode e.Sig with
        | none => some .sigDecode
        | some sigBytes =>
          match S.parseSig sigBytes with
          | none => some .sigParse
          | some signature =>
            match S.parsePubKey pubKeyBytes with
            | none => some .pubkeyParse
            | some pubKey =>
              if S.verify signature hash pubKey then none else some .verifyFailed

/-- The failure exit of SignEvent. -/
inductive SignError
  | invalidKeyLength (n : Nat)
deriving DecidableEq, Repr

/-- SignEvent from event.go. The Go function mutates the event through a
pointer; the model returns the pair (error, final state of the event). On a
key of the wrong length it returns before touching the event; otherwise it
sets ID to the hex digest and Sig to the hex serialized Schnorr signature of
the digest. -/
def SignEvent {Sig Pub : Type} (S : SchnorrImpl Sig Pub) (e : Event) (privKey : Bytes) :
    Option SignError × Event :=
  if privKey.length ≠ 32 then (some (.invalidKeyLength privKey.length), e)
  else
    let hash := hashEvent e
    let e1 := { e with ID := hexEncode hash }
    let sig := S.sign privKey hash
    (none, { e1 with Sig := hexEncode (S.serializeSig sig) })

/-! ### A concrete executable Schnorr instance

Used to instantiate the generic theorems at concrete inputs. Signatures are
64-byte strings: the 32-byte public key followed by a 32-byte keyed digest of
the message; parsing enforces the library's length rules (64-byte signatures,
32-byte x-only public keys). -/

/-- A small executable instance of the library interface. -/
def toySchnorr : SchnorrImpl Bytes Bytes :=
  { parseSig := fun b => if b.length = 64 then some b else none
    serializeSig := fun s => s
    parsePubKey := fun b => if b.length = 32 then some b else none
    pubKeyOfPriv := fun k => k
    sign := fun k m => k ++ sha256 (k ++ m)
    verify := fun s m p => s == p ++ sha256 (p ++ m) }

/-- An instance whose point parser rejects the all-zero x coordinate,
exercising the pubkey-parse failure exit. -/
def strictSchnorr : SchnorrImpl Bytes Bytes :=
  { parseSig := fun b => if b.length = 64 then some b else none
    serializeSig := fun s => s
    parsePubKey := fun b =>
      if b.length = 32 ∧ b ≠ List.replicate 32 0 then some b else none
    pubKeyOfPriv := fun k => k
    sign := fun k m => k ++ sha256 (k ++ m)
    verify := fun s m p => s == p ++ sha256 (p ++ m) }

-- sanity checks of the serializer against Go json.Marshal output
example :
    serializePayload "ab" 0 1 (some [["t", "nostr"]]) "hi" =
      utf8 "[0,\"ab\",0,1,[[\"t\",\"nostr\"]],\"hi\"]" := by decide

example :
    serializePayload "ab" (-7) 1 none "a&b" =
      utf8 "[0,\"ab\",-7,1,null,\"a\\u0026b\"]" := by decide

example :
    serializePayload "" 1700000000 1 (some []) "" =
      utf8 "[0,\"\",1700000000,1,[],\"\"]" := by decide

example : hexEncode (sha256 (utf8 "abc")) =
    "ba7816bf8f01cfea414140de5dae2223b00361a396177a9cb410ff61f20015ad" := by decide

/-! ### The Filter model (internal/nostr/filter.go)

Since and Until are *time.Time in Go and are only ever read through Unix();
they are modelled by the Option of their Unix seconds. Limit is a Go int,
modelled as Int. -/

/-- Filter mirrors the Go struct. -/
structure Filter where
  Authors : List String
  Kinds : List Int
  Since : Option Int
  Until : Option Int
  Limit : Int
deriving DecidableEq, Repr

/-- A value of the wire map produced by toRequest. -/
inductive ReqValue
  | strList (xs : List String)
  | intList (xs : List Int)
  | int (n : Int)
deriving DecidableEq, Repr

/-- Filter.toRequest from filter.go: the Go map[string]any is modelled as the
association list of the keys it receives (key order is irrelevant to the wire
format; the source insertion order is kept). -/
def toRequest (f : Filter) : List (String × ReqValue) :=
  (if f.Authors.length > 0 then [("authors", ReqValue.strList f.Authors)] else []) ++
  (if f.Kinds.length > 0 then [("kinds", ReqValue.intList f.Kinds)] else []) ++
  (match f.Since with
   | some t => [("since", ReqValue.int t)]
   | none => []) ++
  (match f.Until with
   | some t => [("until", ReqValue.int t)]
   | none => []) ++
  (if f.Limit > 0 then [("limit", ReqValue.int f.Limit)] else [])

/-- Whether the encoded filter contains a key. -/
def hasKey (f : Filter) (k : String) : Bool :=
  (toRequest f).any (fun kv => kv.1 == k)

/-- The all-empty filter (the Go zero value). -/
def emptyFilter : Filter :=
  { Authors := [], Kinds := [], Since := none, Until := none, Limit := 0 }

/-! ### JSON wire values

Frames travel as JSON arrays. Numbers are modelled as integers: every number
this client reads or writes on the wire is one. -/

/-- A parsed JSON value. -/
inductive Json
  | null
  | bool (b : Bool)
  | num (n : Int)
  | str (s : String)
  | arr (xs : List Json)
  | obj (kvs : List (String × Json))

/-- json.Unmarshal into a Go string: accepts a JSON string; null is a no-op
leaving the zero value. -/
def Json.asString : Json → Option String
  | .str s => some s
  | .null => some ""
  | _ => none

/-- json.Unmarshal into a Go bool: accepts a JSON boolean; null is a no-op. -/
def Json.asBool : Json → Option Bool
  | .bool b => some b
  | .null => some false
  | _ => none

/-- json.Unmarshal into a Go int64: accepts a JSON (integral) number; null is
a no-op. -/
def Json.asInt : Json → Option Int
  | .num n => some n
  | .null => some 0
  | _ => none

/-- json.Unmarshal into []json.RawMessage: the value must be an array (null
yields the nil slice). -/
def jsonToRawArray : Json → Option (List Json)
  | .arr xs => some xs
  | .null => some []
  | _ => none

/-! ### Publish acknowledgement handling (internal/nostr/client.go) -/

/-- The failure exits of parseOKMessage, in source order. -/
inductive AckError
  | badPayload
  | invalidLength
  | badType
  | unexpectedType (t : String)
  | badId
  | badFlag
  | badMessage
deriving DecidableEq, Repr

/-- okResult from client.go. -/
structure OkResult where
  EventID : String
  OK : Bool
  Message : String
deriving DecidableEq, Repr

/-- parseOKMessage from client.go, step for step, over an already-parsed JSON
value: the reply must be a 4-element array whose first element decodes to the
string OK; the id, flag and message elements must decode to string, bool and
string. -/
def parseOKMessage (data : Json) : Except AckError OkResult :=
  match jsonToRawArray data with
  | none => .error .badPayload
  | some payload =>
    if payload.length ≠ 4 then .error .invalidLength
    else
      match (payload.getD 0 .null).asString with
      | none => .error .badType
      | some msgType =>
        if msgType ≠ "OK" then .error (.unexpectedType msgType)
        else
          match (payload.getD 1 .null).asString with
          | none => .error .badId
          | some eventID =>
            match (payload.getD 2 .null).asBool with
            | none => .error .badFlag
            | some okFlag =>
              match (payload.getD 3 .null).asString with
              | none => .error .badMessage
              | some message => .ok ⟨eventID, okFlag, message⟩

/-- The outcome of Publish after the acknowledgement is read. -/
inductive PublishResult
  | formatError (e : AckError)
  | rejected (eventID message : String)
  | ackMismatch (eventID : String)
  | ok
deriving DecidableEq, Repr

/-- The acknowledgement-handling tail of Publish from client.go: parse the
reply; a false flag is a rejection carrying the echoed id and the relay's
message; a non-empty echoed id that differs case-insensitively from the
published id is a mismatch; otherwise success. -/
def publishAck (evtID : String) (reply : Json) : PublishResult :=
  match parseOKMessage reply with
  | .error e => .formatError e
  | .ok res =>
    if ¬ res.OK then .rejected res.EventID res.Message
    else if res.EventID ≠ "" ∧ ¬ eqFold res.EventID evtID then .ackMismatch res.EventID
    else .ok

/-- Publish reads exactly one reply from the connection: none available means
the read failed; otherwise the outcome is decided by that single reply. No
retry is attempted. -/
def publishReplies (evtID : String) (replies : List Json) : Option PublishResult :=
  match replies with
  | [] => none
  | r :: _ => some (publishAck evtID r)

/-! ### The subscription read loop (runSubscription, internal/nostr/client.go) -/

/-- Last-wins lookup of a key in a JSON object, as json.Unmarshal applies
duplicate keys in order. -/
def lookupLast (kvs : List (String × Json)) (k : String) : Option Json :=
  (kvs.reverse.find? (fun kv => kv.1 == k)).map (fun kv => kv.2)

/-- Decode a struct string field: an absent key keeps the zero value. -/
def decodeStrField (j : Option Json) : Option String :=
  match j with
  | none => some ""
  | some v => v.asString

/-- Decode a struct int64/int field: an absent key keeps the zero value. -/
def decodeIntField (j : Option Json) : Option Int :=
  match j with
  | none => some 0
  | some v => v.asInt

/-- Decode one tag ([]string): null gives the nil slice (modelled empty). -/
def decodeTag : Json → Option (List String)
  | .null => some []
  | .arr xs => xs.mapM Json.asString
  | _ => none

/-- Decode the tags field ([][]string): absent or null keeps the nil slice. -/
def decodeTagsField : Option Json → Option (Option (List (List String)))
  | none => some none
  | some .null => some none
  | some (.arr xs) => (xs.mapM decodeTag).map some
  | some _ => none

/-- json.Unmarshal of a JSON value into the Event struct: the value must be
an object (null keeps the zero value); unknown keys are ignored; each known
key must decode to its field's type; Relay is json-ignored and stays empty. -/
def decodeEvent : Json → Option Event
  | .null => some ⟨"", "", 0, 0, none, "", "", ""⟩
  | .obj kvs =>
    match decodeStrField (lookupLast kvs "id"),
          decodeStrField (lookupLast kvs "pubkey"),
          decodeIntField (lookupLast kvs "created_at"),
          decodeIntField (lookupLast kvs "kind"),
          decodeTagsField (lookupLast kvs "tags"),
          decodeStrField (lookupLast kvs "content"),
          decodeStrField (lookupLast kvs "sig") with
    | some id, some pk, some ca, some kd, some tg, some ct, some sg =>
      some ⟨id, pk, ca, kd, tg, ct, sg, ""⟩
    | _, _, _, _, _, _, _ => none
  | _ => none

/-- One iteration of the runSubscription dispatch on a successfully read
frame: returns the event delivered to the events channel, if any. Frames that
fail to parse as a JSON array, empty frames, frames whose type element is not
a string, non-EVENT types (EOSE, NOTICE and everything else), EVENT frames
with fewer than 3 elements, a non-string or non-matching subscription id, an
undecodable event object, and events failing Verify all deliver nothing. A
delivered event is stamped with the relay address. -/
def handleFrame {Sig Pub : Type} (S : SchnorrImpl Sig Pub) (subID relay : String)
    (frame : Json) : Option Event :=
  match jsonToRawArray frame with
  | none => none
  | some payload =>
    match payload with
    | [] => none
    | typeElem :: rest =>
      match typeElem.asString with
      | none => none
      | some msgType =>
        if msgType = "EVENT" then
          match rest with
          | subElem :: evtElem :: _ =>
            match subElem.asString with
            | none => none
            | some recvSub =>
              if recvSub ≠ subID then none
              else
                match decodeEvent evtElem with
                | none => none
                | some evt =>
                  match Verify S evt with
                  | some _ => none
                  | none => some { evt with Relay := relay }
          | _ => none
        else none

/-- The events delivered by the read loop over a list of successfully read
frames, in order. -/
def processFrames {Sig Pub : Type} (S : SchnorrImpl Sig Pub) (subID relay : String)
    (frames : List Json) : List Event :=
  frames.filterMap (handleFrame S subID relay)

/-! ### The Stream reconnect loop (Stream, internal/nostr/client.go) -/

/-- The observable actions of the Stream goroutine. errorEmitted is a call of
emitError (a non-blocking send into the capacity-1 error channel);
channelsClosed is the deferred close of both channels on return. -/
inductive StreamAct
  | errorEmitted (msg : String)
  | eventDelivered (e : Event)
  | channelsClosed
deriving DecidableEq, Repr

/-- The action trace of the Stream goroutine against a transport whose dial
always fails, when the caller's context is cancelled during the n-th backoff
wait (n = 0: already cancelled when the loop is entered). Each iteration
checks the context, dials, emits the dial error, and waits one backoff
interval; once the cancellation is observed the goroutine returns and its
two deferred closes run, once each. No event is ever sent. -/
def streamDialFailTrace (relay : String) : Nat → List StreamAct
  | 0 => [.channelsClosed]
  | n + 1 => .errorEmitted ("dial " ++ relay) :: streamDialFailTrace relay n

/-! ### Subscription setup (runSubscription preamble and randomSubID) -/

/-- randomSubID from client.go: the hex encoding of 8 bytes from the OS
randomness source, or, if that read fails (rnd = none), the fallback string
noscli-(current Unix nanoseconds). -/
def randomSubID (rnd : Option Bytes) (nowNanos : Int) : String :=
  match rnd with
  | some buf => hexEncode buf
  | none => "noscli-" ++ toString nowNanos

/-- A wire map value as it appears inside the REQ frame. -/
def reqValueJson : ReqValue → Json
  | .strList xs => .arr (xs.map Json.str)
  | .intList xs => .arr (xs.map (fun n => Json.num n))
  | .int n => .num n

/-- The encoded filter object sent on the wire. -/
def encodeFilter (f : Filter) : Json :=
  .obj ((toRequest f).map (fun kv => (kv.1, reqValueJson kv.2)))

/-- The subscribe frame written by runSubscription: the filter copy has its
Since field overwritten with the current time before encoding. -/
def subscribeFrame (subID : String) (now : Int) (filter : Filter) : Json :=
  .arr [.str "REQ", .str subID, encodeFilter { filter with Since := some now }]

/-- The observable I/O actions of one runSubscription call. -/
inductive SessionAct
  | frameSent (j : Json)
  | frameRead

/-- The I/O trace of one runSubscription call that goes on to read some
number of frames: it generates the subscription id from this connection's
randomness draw, overwrites the filter's Since with the current time, writes
the REQ frame, and only then starts reading. -/
def runSubscriptionTrace (rnd : Option Bytes) (nowNanos now : Int) (filter : Filter)
    (reads : Nat) : List SessionAct :=
  SessionAct.frameSent (subscribeFrame (randomSubID rnd nowNanos) now filter) ::
    List.replicate reads SessionAct.frameRead

/-! ### Concrete instances used to instantiate the theorems -/

/-- The 32-byte key of all 0x01 bytes from the repository's own tests. -/
def toyKey : Bytes := List.replicate 32 1

/-- The unsigned test event of event_test.go (kind 1, content hello nostr,
tag t/nostr, timestamp 1700000000), with the pubkey the toy instance derives
from toyKey. -/
def baseEvent : Event :=
  { ID := "", PubKey := hexEncode toyKey, CreatedAt := 1700000000, Kind := 1,
    Tags := some [["t", "nostr"]], Content := "hello nostr", Sig := "", Relay := "" }

/-- baseEvent signed with toyKey under the toy instance. -/
def signedEvent : Event := (SignEvent toySchnorr baseEvent toyKey).2

/-- signedEvent with one byte of the PubKey field mutated (first hex digit 0
changed to 1). -/
def mutatedPubKeyEvent : Event :=
  { signedEvent with PubKey := String.mk ('1' :: signedEvent.PubKey.data.drop 1) }

/-- An event whose pubkey is 32 bytes of zero (hex-decodable, correct length,
rejected by strictSchnorr's point parser) and whose sig is a 1-byte string
(hex-decodable, rejected by the signature parser), with a correct ID. -/
def zeroPkBase : Event :=
  { ID := "", PubKey := hexEncode (List.replicate 32 0), CreatedAt := 0, Kind := 1,
    Tags := some [], Content := "", Sig := "00", Relay := "" }

/-- zeroPkBase with its ID set to the correct digest. -/
def zeroPkEvent : Event :=
  { zeroPkBase with ID := hexEncode (hashEvent zeroPkBase) }

/-- An event whose Tags slice is nil. -/
def nilTagsEvent : Event :=
  { ID := "", PubKey := "ab", CreatedAt := 0, Kind := 1,
    Tags := none, Content := "", Sig := "", Relay := "" }

/-- Modelled from the spec: the payload serialization as the specification
words it, with tags always encoded as nested string arrays (a nil slice
serialized like an empty one). Compared against serializePayload, which
embeds the source. -/
def specSerializePayload (pubkey : String) (created_at : Int) (kind : Int)
    (tags : Option (List (List String))) (content : String) : Bytes :=
  91 :: 48 :: 44 :: jsonQuoteString pubkey ++ 44 :: intDecimalBytes created_at ++
    44 :: intDecimalBytes kind ++
    44 :: (91 :: commaJoin ((tags.getD []).map jsonStringArray) ++ [93]) ++
    44 :: jsonQuoteString content ++ [93]

/-- Discriminator: an emitError action. -/
def StreamAct.isError : StreamAct → Bool
  | .errorEmitted _ => true
  | _ => false

/-- Discriminator: an event delivery action. -/
def StreamAct.isEvent : StreamAct → Bool
  | .eventDelivered _ => true
  | _ => false

/-- Discriminator: the channel-closing action. -/
def StreamAct.isClose : StreamAct → Bool
  | .channelsClosed => true
  | _ => false

/-- The wire JSON object encoding signedEvent, as a relay would send it
inside an EVENT frame. -/
def signedEventJson : Json :=
  Json.obj [("id", Json.str signedEvent.ID), ("pubkey", Json.str signedEvent.PubKey),
    ("created_at", Json.num signedEvent.CreatedAt), ("kind", Json.num signedEvent.Kind),
    ("tags", Json.arr [Json.arr [Json.str "t", Json.str "nostr"]]),
    ("content", Json.str signedEvent.Content), ("sig", Json.str signedEvent.Sig)]

/-! ### Helper lemmas -/

theorem string_ext {a b : String} (h : a.data = b.data) : a = b := by
  cases a; cases b; simp_all

theorem map_id_of_fixed {l : List Char} {f : Char → Char} (h : ∀ x ∈ l, f x = x) :
    l.map f = l := by
  induction l with
  | nil => rfl
  | cons x xs ih =>
    simp only [List.map_cons]
    rw [h x (List.mem_cons_self x xs), ih (fun y hy => h y (List.mem_cons_of_mem x hy))]

theorem eqFold_iff {a b : String} :
    eqFold a b = true ↔ a.data.map asciiLower = b.data.map asciiLower := by
  unfold eqFold
  exact beq_iff_eq

theorem eqFold_refl (s : String) : eqFold s s = true := eqFold_iff.mpr rfl

theorem eqFold_symm {a b : String} (h : eqFold a b = true) : eqFold b a = true :=
  eqFold_iff.mpr (eqFold_iff.mp h).symm

theorem eqFold_trans {a b c : String} (h1 : eqFold a b = true) (h2 : eqFold b c = true) :
    eqFold a c = true :=
  eqFold_iff.mpr ((eqFold_iff.mp h1).trans (eqFold_iff.mp h2))

theorem hexDigitChar_lower {n : Nat} (h : n < 16) :
    asciiLower (hexDigitChar n) = hexDigitChar n := by
  interval_cases n <;> decide

theorem hexDigitVal_hexDigitChar {n : Nat} (h : n < 16) :
    hexDigitVal (hexDigitChar n) = some n := by
  interval_cases n <;> decide

theorem hexEncode_cons (b : Nat) (bs : Bytes) :
    hexEncode (b :: bs) =
      String.mk (hexDigitChar (b / 16) :: hexDigitChar (b % 16) :: (hexEncode bs).data) := rfl

theorem div16_lt {b : Nat} (h : b < 256) : b / 16 < 16 :=
  (Nat.div_lt_iff_lt_mul (by norm_num)).mpr h

theorem mod16_lt (b : Nat) : b % 16 < 16 := Nat.mod_lt _ (by norm_num)

theorem hexEncode_lower {bs : Bytes} (h : ∀ b ∈ bs, b < 256) :
    ∀ c ∈ (hexEncode bs).data, asciiLower c = c := by
  induction bs with
  | nil => intro c hc; cases hc
  | cons b bs ih =>
    intro c hc
    rw [hexEncode_cons] at hc
    simp only [List.mem_cons] at hc
    rcases hc with h1 | h1 | h1
    · rw [h1]; exact hexDigitChar_lower (div16_lt (h b (List.mem_cons_self b bs)))
    · rw [h1]; exact hexDigitChar_lower (mod16_lt b)
    · exact ih (fun x hx => h x (List.mem_cons_of_mem b hx)) c h1

theorem hexDecode_hexEncode {bs : Bytes} (h : ∀ b ∈ bs, b < 256) :
    hexDecode (hexEncode bs) = some bs := by
  induction bs with
  | nil => rfl
  | cons b bs ih =>
    show hexDecodeChars (hexEncode (b :: bs)).data = some (b :: bs)
    rw [hexEncode_cons]
    show hexDecodeChars (_ :: _ :: _) = _
    unfold hexDecodeChars
    have ihx : hexDecodeChars (hexEncode bs).data = some bs :=
      ih (fun x hx => h x (List.mem_cons_of_mem b hx))
    rw [hexDigitVal_hexDigitChar (div16_lt (h b (List.mem_cons_self b bs))),
        hexDigitVal_hexDigitChar (mod16_lt b), ihx]
    show some ((b / 16 * 16 + b % 16) :: bs) = some (b :: bs)
    rw [Nat.div_add_mod' b 16]

theorem hexEncode_inj {bs bs' : Bytes} (h1 : ∀ b ∈ bs, b < 256) (h2 : ∀ b ∈ bs', b < 256)
    (he : hexEncode bs = hexEncode bs') : bs = bs' := by
  have r1 := hexDecode_hexEncode h1
  rw [he, hexDecode_hexEncode h2] at r1
  exact (Option.some.injEq _ _ ▸ r1).symm

theorem hexEncode_fold_inj {bs bs' : Bytes} (h1 : ∀ b ∈ bs, b < 256)
    (h2 : ∀ b ∈ bs', b < 256) (hf : eqFold (hexEncode bs) (hexEncode bs') = true) :
    bs = bs' := by
  apply hexEncode_inj h1 h2
  apply string_ext
  have e1 := map_id_of_fixed (hexEncode_lower h1)
  have e2 := map_id_of_fixed (hexEncode_lower h2)
  rw [← e1, ← e2]
  exact eqFold_iff.mp hf

theorem hexEncode_length (bs : Bytes) : (hexEncode bs).length = 2 * bs.length := by
  induction bs with
  | nil => rfl
  | cons b bs ih =>
    show ((hexEncode (b :: bs)).data).length = 2 * (b :: bs).length
    rw [hexEncode_cons]
    show (hexEncode bs).data.length + 1 + 1 = 2 * (bs.length + 1)
    have : (hexEncode bs).data.length = 2 * bs.length := ih
    omega

theorem beBytes_lt : ∀ (k n : Nat), ∀ b ∈ beBytes n k, b < 256 := by
  intro k
  induction k with
  | zero => intro n b hb; cases hb
  | succ k ih =>
    intro n b hb
    unfold beBytes at hb
    rcases List.mem_append.mp hb with h | h
    · exact ih _ b h
    · simp only [List.mem_singleton] at h
      rw [h]; exact Nat.mod_lt _ (by norm_num)

theorem hash8Bytes_lt (s : Hash8) : ∀ b ∈ hash8Bytes s, b < 256 := by
  intro b hb
  unfold hash8Bytes at hb
  simp only [List.mem_append] at hb
  rcases hb with ((((((h | h) | h) | h) | h) | h) | h) | h <;> exact beBytes_lt _ _ b h

theorem sha256_lt (m : Bytes) : ∀ b ∈ sha256 m, b < 256 := by
  intro b hb
  exact hash8Bytes_lt _ b hb

theorem hashEvent_lt (e : Event) : ∀ b ∈ hashEvent e, b < 256 :=
  sha256_lt _

theorem hashEvent_update_id_sig (e : Event) (i s : String) :
    hashEvent { e with ID := i, Sig := s } = hashEvent e := rfl

theorem hashEvent_update_relay (e : Event) (r : String) :
    hashEvent { e with Relay := r } = hashEvent e := rfl

/-- Inversion of a successful Verify: every check passed. -/
theorem verify_none_inv {Sig Pub : Type} {S : SchnorrImpl Sig Pub} {e : Event}
    (h : Verify S e = none) :
    eqFold (hexEncode (hashEvent e)) e.ID = true ∧
    ∃ pkb sb sg pub,
      hexDecode e.PubKey = some pkb ∧ pkb.length = 32 ∧
      hexDecode e.Sig = some sb ∧ S.parseSig sb = some sg ∧
      S.parsePubKey pkb = some pub ∧ S.verify sg (hashEvent e) pub = true := by
  simp only [Verify] at h
  split at h
  · simp at h
  next hid =>
    refine ⟨by simpa using hid, ?_⟩
    split at h
    · simp at h
    next pkb hpk =>
      split at h
      · simp at h
      next hlen =>
        split at h
        · simp at h
        next sb hsb =>
          split at h
          · simp at h
          next sg hsg =>
            split at h
            · simp at h
            next pub hpub =>
              split at h
              next hver =>
                exact ⟨pkb, sb, sg, pub, hpk, by simpa using hlen, hsb, hsg, hpub, hver⟩
              next hver => simp at h

/-! ### Claim theorems -/

/-- C10: SignEvent modifies only the id and sig fields of the event: pubkey,
created_at, kind, tags, content and the origin relay are unchanged in every
case, so in particular the pubkey is never derived from the private key; and
a key whose length is not 32 bytes fails with the key-length error leaving
the event entirely unchanged. -/
theorem signEvent_frame {Sig Pub : Type} (S : SchnorrImpl Sig Pub) (e : Event) (k : Bytes) :
    (SignEvent S e k).2.PubKey = e.PubKey ∧
    (SignEvent S e k).2.CreatedAt = e.CreatedAt ∧
    (SignEvent S e k).2.Kind = e.Kind ∧
    (SignEvent S e k).2.Tags = e.Tags ∧
    (SignEvent S e k).2.Content = e.Content ∧
    (SignEvent S e k).2.Relay = e.Relay ∧
    (k.length ≠ 32 → SignEvent S e k = (some (SignError.invalidKeyLength k.length), e)) := by
  unfold SignEvent
  by_cases hk : k.length = 32
  · rw [if_neg (not_not_intro hk)]
    exact ⟨rfl, rfl, rfl, rfl, rfl, rfl, fun hbad => absurd hk hbad⟩
  · rw [if_pos hk]
    exact ⟨rfl, rfl, rfl, rfl, rfl, rfl, fun _ => rfl⟩

/-- Witness for signEvent_frame: a 31-byte key fails with the length error
and returns the event unchanged. -/
theorem signEvent_frame_witness :
    SignEvent toySchnorr baseEvent (List.replicate 31 1) =
      (some (SignError.invalidKeyLength 31), baseEvent) :=
  (signEvent_frame toySchnorr baseEvent (List.replicate 31 1)).2.2.2.2.2.2 (by decide)

/-- C5 counterexample: the filter whose only field set is Limit = -1 encodes
to the empty mapping although its Limit is non-zero, so a key is not present
exactly when the field is non-zero. -/
theorem toRequest_negative_limit_cex :
    toRequest { emptyFilter with Limit := -1 } = [] ∧
    ((-1 : Int) ≠ 0) ∧
    hasKey { emptyFilter with Limit := -1 } "limit" = false := by decide

/-- C5 amended: a key is present in the encoding iff authors/kinds are
non-empty, since/until non-nil, and limit positive (not merely non-zero; the
code emits limit only when it is greater than zero); the empty filter encodes
to the empty mapping and a filter with only Limit = 42 encodes to exactly the
limit key. -/
theorem toRequest_amended (f : Filter) :
    (hasKey f "authors" = true ↔ f.Authors ≠ []) ∧
    (hasKey f "kinds" = true ↔ f.Kinds ≠ []) ∧
    (hasKey f "since" = true ↔ f.Since ≠ none) ∧
    (hasKey f "until" = true ↔ f.Until ≠ none) ∧
    (hasKey f "limit" = true ↔ f.Limit > 0) ∧
    toRequest emptyFilter = [] ∧
    toRequest { emptyFilter with Limit := 42 } = [("limit", ReqValue.int 42)] := by
  obtain ⟨as, ks, si, un, li⟩ := f
  refine ⟨?_, ?_, ?_, ?_, ?_, by decide, by decide⟩ <;>
    cases as <;> cases ks <;> cases si <;> cases un <;>
      by_cases hl : li > 0 <;> simp_all [hasKey, toRequest]

/-- Witness for toRequest_amended at a concrete filter. -/
theorem toRequest_amended_witness :
    hasKey { emptyFilter with Limit := 42 } "limit" = true ↔
      ({ emptyFilter with Limit := 42 } : Filter).Limit > 0 :=
  (toRequest_amended { emptyFilter with Limit := 42 }).2.2.2.2.1

/-- C7: against a transport whose dial always fails, the stream goroutine's
action trace is one emitted dial error per failed attempt followed by the
single channel close once cancellation is observed: no event is ever
delivered, each failed attempt emits exactly one error, the channels are
closed exactly once, and only after the cancellation (never because of the
errors themselves). -/
theorem stream_dial_fail_spec (relay : String) (n : Nat) :
    streamDialFailTrace relay n =
      List.replicate n (StreamAct.errorEmitted ("dial " ++ relay)) ++
        [StreamAct.channelsClosed] ∧
    (streamDialFailTrace relay n).filter StreamAct.isEvent = [] ∧
    ((streamDialFailTrace relay n).filter StreamAct.isError).length = n ∧
    (streamDialFailTrace relay n).filter StreamAct.isClose = [StreamAct.channelsClosed] := by
  induction n with
  | zero => exact ⟨rfl, rfl, rfl, rfl⟩
  | succ n ih =>
    obtain ⟨h1, h2, h3, h4⟩ := ih
    refine ⟨?_, ?_, ?_, ?_⟩
    · simp only [streamDialFailTrace, h1, List.replicate_succ, List.cons_append]
    · simp only [streamDialFailTrace, List.filter_cons]
      simpa [StreamAct.isEvent] using h2
    · simp only [streamDialFailTrace, List.filter_cons]
      simpa [StreamAct.isError] using h3
    · simp only [streamDialFailTrace, List.filter_cons]
      simpa [StreamAct.isClose] using h4

/-- Witness for stream_dial_fail_spec at three failed attempts. -/
theorem stream_dial_fail_spec_witness :
    streamDialFailTrace "wss://r" 3 =
      List.replicate 3 (StreamAct.errorEmitted ("dial " ++ "wss://r")) ++
        [StreamAct.channelsClosed] :=
  (stream_dial_fail_spec "wss://r" 3).1

/-- C1 counterexample: for an event whose Tags slice is nil the code
serializes the tags element of the hashed tuple as null, not as a nested
string array, so its digest differs from the digest of the serialization the
claim describes; both serialized payloads are shown verbatim. -/
theorem hashEvent_nil_tags_cex :
    serializePayload nilTagsEvent.PubKey nilTagsEvent.CreatedAt nilTagsEvent.Kind
        nilTagsEvent.Tags nilTagsEvent.Content = utf8 "[0,\"ab\",0,1,null,\"\"]" ∧
    specSerializePayload "ab" 0 1 none "" = utf8 "[0,\"ab\",0,1,[],\"\"]" ∧
    hashEvent nilTagsEvent ≠ sha256 (specSerializePayload "ab" 0 1 none "") := by decide

/-- C1 amended: hash(event) is the SHA-256 digest of the compact UTF-8
JSON-array serialization of the tuple (0, pubkey, created_at, kind, tags,
content); when the tags slice is non-nil that serialization encodes tags as
nested string arrays exactly as the claim states (a nil slice is serialized
as null instead); and the digest is a deterministic function of exactly those
six fields. -/
theorem hashEvent_spec_amended (e e' : Event) :
    hashEvent e = sha256 (serializePayload e.PubKey e.CreatedAt e.Kind e.Tags e.Content) ∧
    (e.Tags ≠ none →
      serializePayload e.PubKey e.CreatedAt e.Kind e.Tags e.Content =
        specSerializePayload e.PubKey e.CreatedAt e.Kind e.Tags e.Content) ∧
    (e.PubKey = e'.PubKey → e.CreatedAt = e'.CreatedAt → e.Kind = e'.Kind →
      e.Tags = e'.Tags → e.Content = e'.Content → hashEvent e = hashEvent e') := by
  refine ⟨rfl, ?_, ?_⟩
  · intro ht
    cases h : e.Tags with
    | none => exact absurd h ht
    | some ts => simp [serializePayload, specSerializePayload, serializeTags, h]
  · intro h1 h2 h3 h4 h5
    unfold hashEvent
    rw [h1, h2, h3, h4, h5]

/-- Witness for hashEvent_spec_amended: the test event's payload agrees with
the spec-worded serialization (its tags are present), and its digest depends
only on the six hashed fields (the ID and Sig fields are irrelevant). -/
theorem hashEvent_spec_amended_witness :
    serializePayload baseEvent.PubKey baseEvent.CreatedAt baseEvent.Kind baseEvent.Tags
        baseEvent.Content =
      specSerializePayload baseEvent.PubKey baseEvent.CreatedAt baseEvent.Kind baseEvent.Tags
        baseEvent.Content ∧
    hashEvent baseEvent = hashEvent signedEvent :=
  ⟨(hashEvent_spec_amended baseEvent baseEvent).2.1 (by decide),
   (hashEvent_spec_amended baseEvent signedEvent).2.2 (by decide) (by decide) (by decide)
     (by decide) (by decide)⟩

/-- Evaluation of Verify when every check passes. -/
theorem verify_eval_none {Sig Pub : Type} (S : SchnorrImpl Sig Pub) (e : Event)
    (pkb sb : Bytes) (sg : Sig) (pub : Pub)
    (hid : eqFold (hexEncode (hashEvent e)) e.ID = true)
    (hpk : hexDecode e.PubKey = some pkb) (hlen : pkb.length = 32)
    (hsb : hexDecode e.Sig = some sb) (hsg : S.parseSig sb = some sg)
    (hpub : S.parsePubKey pkb = some pub)
    (hver : S.verify sg (hashEvent e) pub = true) :
    Verify S e = none := by
  simp [Verify, hid, hpk, hlen, hsb, hsg, hpub, hver]

/-- C2: signing an unsigned event whose pubkey field is the hex encoding of
the public key derived from a 32-byte private key succeeds, and the signed
event passes Verify; stated for any library implementation satisfying the
btcec guarantees at the relevant digest (32-byte serialized public keys with
byte values below 256, signature serialize/parse round-trip, point parsing of
a serialized derived key, and verification of a freshly produced signature
under that key). -/
theorem sign_then_verify_ok {Sig Pub : Type} (S : SchnorrImpl Sig Pub) (e : Event)
    (k : Bytes) (pub : Pub)
    (hk : k.length = 32)
    (hpk : e.PubKey = hexEncode (S.pubKeyOfPriv k))
    (hpkLen : (S.pubKeyOfPriv k).length = 32)
    (hpkBytes : ∀ b ∈ S.pubKeyOfPriv k, b < 256)
    (hsigBytes : ∀ b ∈ S.serializeSig (S.sign k (hashEvent e)), b < 256)
    (hparse : S.parseSig (S.serializeSig (S.sign k (hashEvent e))) =
      some (S.sign k (hashEvent e)))
    (hppk : S.parsePubKey (S.pubKeyOfPriv k) = some pub)
    (hver : S.verify (S.sign k (hashEvent e)) (hashEvent e) pub = true) :
    (SignEvent S e k).1 = none ∧ Verify S (SignEvent S e k).2 = none := by
  have hsign : SignEvent S e k =
      (none, { e with ID := hexEncode (hashEvent e),
                      Sig := hexEncode (S.serializeSig (S.sign k (hashEvent e))) }) := by
    unfold SignEvent
    rw [if_neg (not_not_intro hk)]
  rw [hsign]
  refine ⟨rfl, ?_⟩
  apply verify_eval_none S _ (S.pubKeyOfPriv k) (S.serializeSig (S.sign k (hashEvent e)))
      (S.sign k (hashEvent e)) pub
  · rw [hashEvent_update_id_sig]
    exact eqFold_refl _
  · show hexDecode e.PubKey = _
    rw [hpk]
    exact hexDecode_hexEncode hpkBytes
  · exact hpkLen
  · show hexDecode (hexEncode (S.serializeSig (S.sign k (hashEvent e)))) = _
    exact hexDecode_hexEncode hsigBytes
  · rw [hashEvent_update_id_sig]
    exact hparse
  · exact hppk
  · rw [hashEvent_update_id_sig]
    exact hver

/-- Witness for sign_then_verify_ok: the test event of event_test.go signed
with the all-0x01 32-byte key verifies, under the concrete toy instance. -/
theorem sign_then_verify_ok_witness :
    (SignEvent toySchnorr baseEvent toyKey).1 = none ∧
    Verify toySchnorr (SignEvent toySchnorr baseEvent toyKey).2 = none :=
  sign_then_verify_ok toySchnorr baseEvent toyKey toyKey (by decide) (by decide) (by decide)
    (by decide) (by decide) (by decide) (by decide) (by decide)

/-- C9 counterexample: when the randomness read fails, randomSubID falls back
to a timestamp-based identifier that is not the hex encoding of any byte
string, so the subscription identifier is not always a hex-encoded random
8-byte token. -/
theorem randomSubID_fallback_cex :
    randomSubID none 5 = "noscli-5" ∧ hexDecode (randomSubID none 5) = none := by decide

/-- C9 amended: on every successful connection, when the 8-byte randomness
read succeeds (the code falls back to a timestamp identifier if it fails),
the session subscribes before reading any frame: the first action of the
session trace is sending the REQ frame carrying the hex-encoded 8-byte
subscription identifier (16 hex characters) and the filter encoded with its
Since field overwritten by the current time; distinct randomness draws yield
distinct identifiers, so the identifier is fresh per connection attempt. -/
theorem subscribe_frame_amended (b : Bytes) (nowNanos now : Int) (f : Filter) (reads : Nat)
    (hb : b.length = 8) (hbb : ∀ x ∈ b, x < 256) :
    (runSubscriptionTrace (some b) nowNanos now f reads).head? =
      some (SessionAct.frameSent (Json.arr [Json.str "REQ", Json.str (hexEncode b),
        encodeFilter { f with Since := some now }])) ∧
    randomSubID (some b) nowNanos = hexEncode b ∧
    (randomSubID (some b) nowNanos).length = 16 ∧
    ("since", ReqValue.int now) ∈ toRequest { f with Since := some now } ∧
    (∀ b' : Bytes, (∀ x ∈ b', x < 256) →
      randomSubID (some b') nowNanos = randomSubID (some b) nowNanos → b' = b) := by
  refine ⟨rfl, rfl, ?_, ?_, ?_⟩
  · show (hexEncode b).length = 16
    rw [hexEncode_length, hb]
  · exact List.mem_append_left _ (List.mem_append_left _
      (List.mem_append_right _ (List.mem_cons_self _ _)))
  · intro b' hb' heq
    exact hexEncode_inj hb' hbb heq

/-- Witness for subscribe_frame_amended at a concrete 8-byte draw. -/
theorem subscribe_frame_amended_witness :
    (runSubscriptionTrace (some [1, 2, 3, 4, 5, 6, 7, 8]) 0 1700000000 emptyFilter 2).head? =
      some (SessionAct.frameSent (Json.arr [Json.str "REQ",
        Json.str (hexEncode [1, 2, 3, 4, 5, 6, 7, 8]),
        encodeFilter { emptyFilter with Since := some 1700000000 }])) ∧
    randomSubID (some [1, 2, 3, 4, 5, 6, 7, 8]) 0 = hexEncode [1, 2, 3, 4, 5, 6, 7, 8] :=
  ⟨(subscribe_frame_amended [1, 2, 3, 4, 5, 6, 7, 8] 0 1700000000 emptyFilter 2
      (by decide) (by decide)).1,
   (subscribe_frame_amended [1, 2, 3, 4, 5, 6, 7, 8] 0 1700000000 emptyFilter 2
      (by decide) (by decide)).2.1⟩

theorem hashEvent_update_id (e : Event) (i : String) :
    hashEvent { e with ID := i } = hashEvent e := rfl

theorem hashEvent_update_sig (e : Event) (s : String) :
    hashEvent { e with Sig := s } = hashEvent e := rfl

/-- C3 counterexample: zeroPkEvent has a correct id, a pubkey that decodes to
32 bytes which the point parser rejects, and a sig that hex-decodes but fails
signature parsing; Verify returns the signature-parse error, of the
invalid-signature kind, not the pubkey error the claim requires. -/
theorem verify_order_cex :
    hexDecode zeroPkEvent.PubKey = some (List.replicate 32 0) ∧
    strictSchnorr.parsePubKey (List.replicate 32 0) = none ∧
    hexDecode zeroPkEvent.Sig = some [0] ∧
    strictSchnorr.parseSig [0] = none ∧
    Verify strictSchnorr zeroPkEvent = some VerifyError.sigParse ∧
    VerifyError.sigParse.isInvalidPubKey = false ∧
    VerifyError.sigParse.isInvalidSignature = true := by decide

/-- C3 amended: Verify short-circuits in the source order: id comparison,
pubkey hex decode, pubkey length, sig hex decode, signature parse, pubkey
point parse, Schnorr verification. The pubkey point-validity check runs after
the signature decode and parse, so for an event with a correct id whose
pubkey is 32 bytes but not a valid curve point and whose sig is malformed,
the returned error is the signature error, not the pubkey error. -/
theorem verify_order_amended {Sig Pub : Type} (S : SchnorrImpl Sig Pub) (e : Event) :
    (eqFold (hexEncode (hashEvent e)) e.ID = false →
      Verify S e = some VerifyError.idMismatch) ∧
    (eqFold (hexEncode (hashEvent e)) e.ID = true → hexDecode e.PubKey = none →
      Verify S e = some VerifyError.pubkeyDecode) ∧
    (∀ pkb, eqFold (hexEncode (hashEvent e)) e.ID = true → hexDecode e.PubKey = some pkb →
      pkb.length ≠ 32 → Verify S e = some (VerifyError.pubkeyLength pkb.length)) ∧
    (∀ pkb, eqFold (hexEncode (hashEvent e)) e.ID = true → hexDecode e.PubKey = some pkb →
      pkb.length = 32 → hexDecode e.Sig = none →
      Verify S e = some VerifyError.sigDecode) ∧
    (∀ pkb sb, eqFold (hexEncode (hashEvent e)) e.ID = true → hexDecode e.PubKey = some pkb →
      pkb.length = 32 → hexDecode e.Sig = some sb → S.parseSig sb = none →
      Verify S e = some VerifyError.sigParse ∧
        VerifyError.sigParse.isInvalidSignature = true ∧
        VerifyError.sigParse.isInvalidPubKey = false) ∧
    (∀ pkb sb sg, eqFold (hexEncode (hashEvent e)) e.ID = true →
      hexDecode e.PubKey = some pkb → pkb.length = 32 → hexDecode e.Sig = some sb →
      S.parseSig sb = some sg → S.parsePubKey pkb = none →
      Verify S e = some VerifyError.pubkeyParse) ∧
    (∀ pkb sb sg pub, eqFold (hexEncode (hashEvent e)) e.ID = true →
      hexDecode e.PubKey = some pkb → pkb.length = 32 → hexDecode e.Sig = some sb →
      S.parseSig sb = some sg → S.parsePubKey pkb = some pub →
      S.verify sg (hashEvent e) pub = false →
      Verify S e = some VerifyError.verifyFailed) ∧
    (∀ pkb sb sg pub, eqFold (hexEncode (hashEvent e)) e.ID = true →
      hexDecode e.PubKey = some pkb → pkb.length = 32 → hexDecode e.Sig = some sb →
      S.parseSig sb = some sg → S.parsePubKey pkb = some pub →
      S.verify sg (hashEvent e) pub = true → Verify S e = none) := by
  refine ⟨?_, ?_, ?_, ?_, ?_, ?_, ?_, ?_⟩
  · intro hid
    simp [Verify, hid]
  · intro hid hpk
    simp [Verify, hid, hpk]
  · intro pkb hid hpk hlen
    simp [Verify, hid, hpk, hlen]
  · intro pkb hid hpk hlen hsb
    simp [Verify, hid, hpk, hlen, hsb]
  · intro pkb sb hid hpk hlen hsb hsg
    exact ⟨by simp [Verify, hid, hpk, hlen, hsb, hsg], rfl, rfl⟩
  · intro pkb sb sg hid hpk hlen hsb hsg hpub
    simp [Verify, hid, hpk, hlen, hsb, hsg, hpub]
  · intro pkb sb sg pub hid hpk hlen hsb hsg hpub hver
    simp [Verify, hid, hpk, hlen, hsb, hsg, hpub, hver]
  · intro pkb sb sg pub hid hpk hlen hsb hsg hpub hver
    exact verify_eval_none S e pkb sb sg pub hid hpk hlen hsb hsg hpub hver

/-- Witness for verify_order_amended: the disputed scenario instantiated at
zeroPkEvent under the strict instance. -/
theorem verify_order_amended_witness :
    Verify strictSchnorr zeroPkEvent = some VerifyError.sigParse ∧
    VerifyError.sigParse.isInvalidSignature = true ∧
    VerifyError.sigParse.isInvalidPubKey = false :=
  (verify_order_amended strictSchnorr zeroPkEvent).2.2.2.2.1 (List.replicate 32 0) [0]
    (by decide) (by decide) (by decide) (by decide) (by decide)

/-- C4 counterexample: signedEvent is validly signed; mutating one byte of
its pubkey field (the mutated event differs from it only in the PubKey field)
makes Verify fail with the id-mismatch kind, not the invalid-pubkey kind the
claim requires. -/
theorem verify_mutation_cex :
    Verify toySchnorr signedEvent = none ∧
    mutatedPubKeyEvent.PubKey ≠ signedEvent.PubKey ∧
    mutatedPubKeyEvent = { signedEvent with PubKey := mutatedPubKeyEvent.PubKey } ∧
    Verify toySchnorr mutatedPubKeyEvent = some VerifyError.idMismatch ∧
    VerifyError.idMismatch.isInvalidPubKey = false := by decide

/-- C4 amended: for a validly signed event: replacing the id field by any
string that is not case-insensitively equal to it fails with the id-mismatch
kind (a case-only change still verifies); replacing the pubkey field fails
with the id-mismatch kind whenever the change alters the recomputed digest,
because the pubkey is part of the hashed payload, and never with the
invalid-pubkey kind; and any failure after replacing only the sig field is of
the invalid-signature or verification-failed kind. -/
theorem verify_mutation_amended {Sig Pub : Type} (S : SchnorrImpl Sig Pub) (e : Event)
    (hv : Verify S e = none) :
    (∀ id2, eqFold id2 e.ID = false →
      Verify S { e with ID := id2 } = some VerifyError.idMismatch) ∧
    (∀ pk2, hashEvent { e with PubKey := pk2 } ≠ hashEvent e →
      Verify S { e with PubKey := pk2 } = some VerifyError.idMismatch) ∧
    (∀ sig2 err, Verify S { e with Sig := sig2 } = some err →
      err.isInvalidSignature = true ∨ err = VerifyError.verifyFailed) := by
  obtain ⟨hid, pkb, sb, sg, pub, hpk, hlen, hsb, hsg, hpub, hver⟩ := verify_none_inv hv
  refine ⟨?_, ?_, ?_⟩
  · intro id2 hne
    have hf : eqFold (hexEncode (hashEvent e)) id2 = false := by
      cases hc : eqFold (hexEncode (hashEvent e)) id2 with
      | false => rfl
      | true =>
        have : eqFold id2 e.ID = true := eqFold_trans (eqFold_symm hc) hid
        rw [hne] at this
        exact absurd this (by simp)
    simp [Verify, hashEvent_update_id, hf]
  · intro pk2 hne
    have hf : eqFold (hexEncode (hashEvent { e with PubKey := pk2 })) e.ID = false := by
      cases hc : eqFold (hexEncode (hashEvent { e with PubKey := pk2 })) e.ID with
      | false => rfl
      | true =>
        have hfold : eqFold (hexEncode (hashEvent { e with PubKey := pk2 }))
            (hexEncode (hashEvent e)) = true := eqFold_trans hc (eqFold_symm hid)
        exact absurd (hexEncode_fold_inj (hashEvent_lt _) (hashEvent_lt _) hfold) hne
    simp [Verify, hf]
  · intro sig2 err herr
    rw [show Verify S { e with Sig := sig2 } =
        (let hash := hashEvent e
         match hexDecode sig2 with
         | none => some VerifyError.sigDecode
         | some sigBytes =>
           match S.parseSig sigBytes with
           | none => some VerifyError.sigParse
           | some signature =>
             if S.verify signature hash pub then none else some VerifyError.verifyFailed)
        from by
      simp [Verify, hashEvent_update_sig, hid, hpk, hlen, hpub]] at herr
    cases hd : hexDecode sig2 with
    | none => rw [hd] at herr; simp at herr; left; rw [← herr]; rfl
    | some sb2 =>
      rw [hd] at herr
      cases hp : S.parseSig sb2 with
      | none => simp [hp] at herr; left; rw [← herr]; rfl
      | some sg2 =>
        simp only [hp] at herr
        by_cases hv2 : S.verify sg2 (hashEvent e) pub = true
        · rw [if_pos hv2] at herr; simp at herr
        · rw [if_neg hv2] at herr
          right
          simp at herr
          exact herr.symm

/-- Witness for verify_mutation_amended: replacing signedEvent's id with a
non-matching string yields the id-mismatch error. -/
theorem verify_mutation_amended_witness :
    Verify toySchnorr { signedEvent with ID := "0000" } = some VerifyError.idMismatch :=
  (verify_mutation_amended toySchnorr signedEvent (by decide)).1 "0000" (by decide)

theorem length_eq_four {α : Type} {l : List α} (h : l.length = 4) :
    ∃ a b c d, l = [a, b, c, d] := by
  rcases l with _ | ⟨a, _ | ⟨b, _ | ⟨c, _ | ⟨d, _ | ⟨e, tl⟩⟩⟩⟩⟩ <;>
      simp only [List.length_cons, List.length_nil] at h <;>
    first
    | exact ⟨_, _, _, _, rfl⟩
    | omega

/-- C6: the acknowledgement handling of Publish: a reply that is not a
4-element array with leading tag OK fails with a format error; a well-formed
reply with a false flag fails with the rejection carrying the echoed id and
the relay's message verbatim; a true flag with a non-empty echoed id that
differs case-insensitively from the published id fails as a mismatch;
otherwise Publish succeeds; and the outcome depends only on the single first
reply read, so no retry is attempted on failure. -/
theorem publishAck_cases (evtID : String) :
    (∀ reply : Json,
      (∀ xs, reply = Json.arr xs →
        ¬(xs.length = 4 ∧ xs.getD 0 Json.null = Json.str "OK")) →
      ∃ err, publishAck evtID reply = PublishResult.formatError err) ∧
    (∀ id msg, publishAck evtID
        (Json.arr [Json.str "OK", Json.str id, Json.bool false, Json.str msg]) =
      PublishResult.rejected id msg) ∧
    (∀ id msg, id ≠ "" → eqFold id evtID = false →
      publishAck evtID
          (Json.arr [Json.str "OK", Json.str id, Json.bool true, Json.str msg]) =
        PublishResult.ackMismatch id) ∧
    (∀ id msg, (id = "" ∨ eqFold id evtID = true) →
      publishAck evtID
          (Json.arr [Json.str "OK", Json.str id, Json.bool true, Json.str msg]) =
        PublishResult.ok) ∧
    (∀ r rest rest', publishReplies evtID (r :: rest) = publishReplies evtID (r :: rest')) := by
  refine ⟨?_, ?_, ?_, ?_, fun r rest rest' => rfl⟩
  · intro reply h
    cases reply with
    | null => exact ⟨AckError.invalidLength, rfl⟩
    | bool b => exact ⟨AckError.badPayload, rfl⟩
    | num n => exact ⟨AckError.badPayload, rfl⟩
    | str s => exact ⟨AckError.badPayload, rfl⟩
    | obj kvs => exact ⟨AckError.badPayload, rfl⟩
    | arr xs =>
      have hx := h xs rfl
      push_neg at hx
      by_cases hlen : xs.length = 4
      · obtain ⟨a, b, c, d, rfl⟩ := length_eq_four hlen
        have ha : a ≠ Json.str "OK" := by simpa using hx hlen
        cases a with
        | null =>
          exact ⟨AckError.unexpectedType "", by
            simp [publishAck, parseOKMessage, jsonToRawArray, Json.asString]⟩
        | bool b2 =>
          exact ⟨AckError.badType, by
            simp [publishAck, parseOKMessage, jsonToRawArray, Json.asString]⟩
        | num n =>
          exact ⟨AckError.badType, by
            simp [publishAck, parseOKMessage, jsonToRawArray, Json.asString]⟩
        | arr ys =>
          exact ⟨AckError.badType, by
            simp [publishAck, parseOKMessage, jsonToRawArray, Json.asString]⟩
        | obj kvs =>
          exact ⟨AckError.badType, by
            simp [publishAck, parseOKMessage, jsonToRawArray, Json.asString]⟩
        | str s =>
          have hs : s ≠ "OK" := fun heq => ha (by rw [heq])
          exact ⟨AckError.unexpectedType s, by
            simp [publishAck, parseOKMessage, jsonToRawArray, Json.asString, hs]⟩
      · exact ⟨AckError.invalidLength, by
          simp [publishAck, parseOKMessage, jsonToRawArray, hlen]⟩
  · intro id msg
    rfl
  · intro id msg hid hf
    have hres : parseOKMessage
        (Json.arr [Json.str "OK", Json.str id, Json.bool true, Json.str msg]) =
      Except.ok ⟨id, true, msg⟩ := rfl
    unfold publishAck
    rw [hres]
    simp [hid, hf]
  · intro id msg hcase
    have hres : parseOKMessage
        (Json.arr [Json.str "OK", Json.str id, Json.bool true, Json.str msg]) =
      Except.ok ⟨id, true, msg⟩ := rfl
    unfold publishAck
    rw [hres]
    rcases hcase with hid | hf
    · subst hid; simp
    · simp [hf]

/-- Witness for publishAck_cases: a true acknowledgement echoing a different
id is a mismatch. -/
theorem publishAck_cases_witness :
    publishAck "abc" (Json.arr [Json.str "OK", Json.str "def", Json.bool true,
        Json.str "dup"]) = PublishResult.ackMismatch "def" :=
  (publishAck_cases "abc").2.2.1 "def" "dup" (by decide) (by decide)

theorem jsonToRawArray_cons {f x : Json} {xs : List Json}
    (h : jsonToRawArray f = some (x :: xs)) : f = Json.arr (x :: xs) := by
  cases f with
  | arr ys => rw [show ys = x :: xs from by simpa [jsonToRawArray] using h]
  | null => simp [jsonToRawArray] at h
  | bool b => simp [jsonToRawArray] at h
  | num n => simp [jsonToRawArray] at h
  | str s => simp [jsonToRawArray] at h
  | obj kvs => simp [jsonToRawArray] at h

theorem json_asString_event {j : Json} (h : j.asString = some "EVENT") :
    j = Json.str "EVENT" := by
  cases j with
  | str s => rw [show s = "EVENT" from by simpa [Json.asString] using h]
  | null =>
    have he : ("" : String) = "EVENT" := by
      simp only [Json.asString, Option.some.injEq] at h
      exact h
    exact absurd he (by decide)
  | bool b => simp [Json.asString] at h
  | num n => simp [Json.asString] at h
  | arr xs => simp [Json.asString] at h
  | obj kvs => simp [Json.asString] at h

/-- Inversion of a delivery: a frame that makes the read loop deliver an
event is an EVENT frame of 3 or more elements with the current subscription
id, whose embedded event decodes and verifies; the delivered event is the
decoded one stamped with the relay. -/
theorem handleFrame_some_inv {Sig Pub : Type} {S : SchnorrImpl Sig Pub}
    {subID relay : String} {f : Json} {ev : Event}
    (h : handleFrame S subID relay f = some ev) :
    ∃ subElem evJson rest raw,
      f = Json.arr (Json.str "EVENT" :: subElem :: evJson :: rest) ∧
      subElem.asString = some subID ∧
      decodeEvent evJson = some raw ∧
      Verify S raw = none ∧
      ev = { raw with Relay := relay } := by
  unfold handleFrame at h
  split at h
  · simp at h
  next payload hraw =>
    split at h
    · simp at h
    next typeElem rest =>
      split at h
      · simp at h
      next msgType hts =>
        split at h
        case isFalse => simp at h
        case isTrue hmt =>
          split at h
          case h_2 => simp at h
          case h_1 subElem evtElem tail =>
            split at h
            · simp at h
            next recvSub hrs =>
              split at h
              case isTrue => simp at h
              case isFalse hneq =>
                split at h
                · simp at h
                next raw hdec =>
                  split at h
                  case h_1 verr hverr => simp at h
                  case h_2 hvok =>
                    have hsub : recvSub = subID := by simpa using hneq
                    have hty : typeElem = Json.str "EVENT" := json_asString_event (hmt ▸ hts)
                    refine ⟨subElem, evtElem, tail, raw, ?_, hsub ▸ hrs, hdec, hvok, ?_⟩
                    · rw [← hty]
                      exact jsonToRawArray_cons hraw
                    · simpa using h.symm

/-- C8: every event delivered on the event sequence of a Stream call came
from an EVENT frame with at least 3 elements whose subscription id element
decodes to the current subscription's id, was decoded from that frame, passed
Verify, and carries the relay address of the call as its origin; frames
failing any of these conditions deliver nothing. -/
theorem delivered_events_verified {Sig Pub : Type} (S : SchnorrImpl Sig Pub)
    (subID relay : String) (frames : List Json) (e : Event)
    (he : e ∈ processFrames S subID relay frames) :
    e.Relay = relay ∧
    ∃ subElem evJson rest raw,
      Json.arr (Json.str "EVENT" :: subElem :: evJson :: rest) ∈ frames ∧
      subElem.asString = some subID ∧
      decodeEvent evJson = some raw ∧
      Verify S raw = none ∧
      e = { raw with Relay := relay } := by
  induction frames with
  | nil => simp [processFrames] at he
  | cons f fs ih =>
    rw [processFrames, List.filterMap_cons] at he
    cases hf : handleFrame S subID relay f with
    | none =>
      simp only [hf] at he
      obtain ⟨hrel, subElem, evJson, rest, raw, hmem, hsub, hdec, hver, hev⟩ := ih he
      exact ⟨hrel, subElem, evJson, rest, raw, List.mem_cons_of_mem f hmem, hsub, hdec,
        hver, hev⟩
    | some ev =>
      simp only [hf] at he
      rcases List.mem_cons.mp he with heq | hmem
      · obtain ⟨subElem, evJson, rest, raw, hfj, hsub, hdec, hver, hev⟩ :=
          handleFrame_some_inv hf
        subst heq
        refine ⟨by rw [hev], subElem, evJson, rest, raw, ?_, hsub, hdec, hver, hev⟩
        rw [hfj]
        exact List.mem_cons_self _ _
      · obtain ⟨hrel, subElem, evJson, rest, raw, hmem2, hsub, hdec, hver, hev⟩ := ih hmem
        exact ⟨hrel, subElem, evJson, rest, raw, List.mem_cons_of_mem f hmem2, hsub, hdec,
          hver, hev⟩

/-- Witness for delivered_events_verified: a single well-formed EVENT frame
carrying signedEvent is delivered stamped with the relay address. -/
theorem delivered_events_verified_witness :
    ({ signedEvent with Relay := "wss://relay.example" } : Event).Relay =
      "wss://relay.example" ∧
    ∃ subElem evJson rest raw,
      Json.arr (Json.str "EVENT" :: subElem :: evJson :: rest) ∈
        [Json.arr [Json.str "EVENT", Json.str "sub1", signedEventJson]] ∧
      subElem.asString = some "sub1" ∧
      decodeEvent evJson = some raw ∧
      Verify toySchnorr raw = none ∧
      ({ signedEvent with Relay := "wss://relay.example" } : Event) =
        { raw with Relay := "wss://relay.example" } :=
  delivered_events_verified toySchnorr "sub1" "wss://relay.example"
    [Json.arr [Json.str "EVENT", Json.str "sub1", signedEventJson]]
    { signedEvent with Relay := "wss://relay.example" } (by decide)

end Noscli
